import Mathlib

/-!
# mod_mbtiles: a shallow embedding of `mod_mbtiles.c`

The registry (`tilesets`, `numLoaded`, `mbtiles_add_path`, `findTileset`), the start-up
pass (`processStarting`), the storage read (`readTile`) and the request handler
(`mbtiles_handler`) are transcribed as executable functions.

Conventions of the embedding:
* a C string is the list of its characters before the terminating NUL;
* a C `int` is an `Int`; where C leaves the result of an operation undefined (a shift count
  outside `0..30`, signed overflow, a conversion that does not fit, a write past the end of
  a buffer) the function returns `Except.error Fault.undefined`;
* SQLite is an oracle: a connection answers each round of the tile query.
-/

namespace ModMbtiles

/-- A C string, without its terminating NUL. -/
abbrev CStr := List Char

/-- A buffer of `unsigned char`. -/
abbrev Bytes := List Nat

/-- Why a run of the model has no result. -/
inductive Fault where
  | undefined
  | outOfFuel
  deriving DecidableEq, Repr

/-- The constant `MAX_TILESETS`, defined as 20. -/
def MAX_TILESETS : Nat := 20

/-- Smallest value of a C `int`. -/
def INT_MIN : Int := -2147483648

/-- Largest value of a C `int`. -/
def INT_MAX : Int := 2147483647

/-- Whether a mathematical integer is representable as a C `int`. -/
def inInt (v : Int) : Bool := decide (INT_MIN ≤ v) && decide (v ≤ INT_MAX)

/-! ## The `sscanf` call of `mbtiles_handler` -/

/-- C `isspace` in the "C" locale: space, `\t`, `\n`, `\v`, `\f`, `\r`. -/
def isSpace (c : Char) : Bool :=
  c.toNat = 32 || (decide (9 ≤ c.toNat) && decide (c.toNat ≤ 13))

/-- C `isdigit`. -/
def isDigit (c : Char) : Bool := decide (48 ≤ c.toNat) && decide (c.toNat ≤ 57)

/-- Value of a run of decimal digits. -/
def digitsVal (ds : List Char) : Int :=
  ds.foldl (fun acc d => 10 * acc + ((d.toNat : Int) - 48)) 0

/-- An ordinary character of the format: the next input character must be that character. -/
def scanLit (c : Char) : CStr → Option CStr
  | [] => none
  | d :: r => if d = c then some r else none

/-- The directive `%39[^/]`: the longest run of characters other than `/`, at most 39 of
them; the directive fails on an empty run. Returns the run and the remaining input. -/
def scanName (s : CStr) : Option (CStr × CStr) :=
  let nm := (s.takeWhile (fun c => c != '/')).take 39
  if nm = [] then none else some (nm, s.drop nm.length)

/-- The directive `%d`: white space is skipped, then an optional sign and at least one
decimal digit are read. Returns the mathematical value and the remaining input. -/
def scanInt (s : CStr) : Option (Int × CStr) :=
  let s1 := s.dropWhile isSpace
  let signed : Bool × CStr :=
    match s1 with
    | c :: r => if c = '-' then (true, r) else if c = '+' then (false, r) else (false, s1)
    | [] => (false, s1)
  let ds := signed.2.takeWhile isDigit
  let rest := signed.2.dropWhile isDigit
  if ds = [] then none
  else some (if signed.1 then - digitsVal ds else digitsVal ds, rest)

/-- The objects `sscanf` writes to: `name` (`none` while the buffer is still
uninitialised), `z`, `x` and `y`. -/
structure Scanned where
  name : Option CStr
  z : Int
  x : Int
  y : Int
  deriving DecidableEq, Repr

/-- The locals of `mbtiles_handler` before the call: `z=-1, x=0, y=0`, `name` not set. -/
def Scanned.init : Scanned := { name := none, z := -1, x := 0, y := 0 }

/-- The call `sscanf(r->uri, "/%39[^/]/%d/%d/%d.", name, &z, &x, &y)`: directives are
processed left to right and the call stops at the first one that fails, keeping what was
assigned so far. The trailing `.` assigns nothing, so whether it matches is not observable.
A converted number that does not fit an `int` is undefined. -/
def sscanf_uri (uri : CStr) : Except Fault Scanned :=
  let s0 := Scanned.init
  match scanLit '/' uri with
  | none => .ok s0
  | some r1 =>
  match scanName r1 with
  | none => .ok s0
  | some (nm, r2) =>
  let s1 := { s0 with name := some nm }
  match scanLit '/' r2 with
  | none => .ok s1
  | some r3 =>
  match scanInt r3 with
  | none => .ok s1
  | some (z, r4) =>
  if !inInt z then .error .undefined else
  let s2 := { s1 with z := z }
  match scanLit '/' r4 with
  | none => .ok s2
  | some r5 =>
  match scanInt r5 with
  | none => .ok s2
  | some (x, r6) =>
  if !inInt x then .error .undefined else
  let s3 := { s2 with x := x }
  match scanLit '/' r6 with
  | none => .ok s3
  | some r7 =>
  match scanInt r7 with
  | none => .ok s3
  | some (y, _) =>
  if !inInt y then .error .undefined else
  .ok { s3 with y := y }

/-! ## SQLite, seen from this module -/

/-- The result code `SQLITE_OK` of sqlite3.h. -/
def SQLITE_OK : Int := 0

/-- The result code `SQLITE_SCHEMA` of sqlite3.h. -/
def SQLITE_SCHEMA : Int := 17

/-- The result code `SQLITE_MISUSE` of sqlite3.h, the answer of a null connection. -/
def SQLITE_MISUSE : Int := 21

/-- What one pass through the body of the `do` loop of `readTile` observes: the code of
`sqlite3_prepare`, the blob of column 0 when `sqlite3_step` returned `SQLITE_ROW` (`none`
for any other code), and the code of `sqlite3_finalize`. -/
structure Round where
  prepareRc : Int
  row : Option Bytes
  finalizeRc : Int

/-- A connection `sqlite3 *`: for the key `(zoom_level, tile_column, tile_row)` and the
number of the round within one call of `readTile`, what SQLite answers. -/
structure Sqlite3 where
  tileQuery : Int → Int → Int → Nat → Round

/-- The null connection of the zero-initialised static array. -/
def Sqlite3.null : Sqlite3 := { tileQuery := fun _ _ _ _ => ⟨SQLITE_MISUSE, none, SQLITE_MISUSE⟩ }

/-- What `readTile` hands back: its return code, `*pTile` (`none` for `NULL`) and
`*psTile`. -/
structure TileRead where
  rc : Int
  tile : Option Bytes
  tileSize : Int
  deriving DecidableEq, Repr

/-- The `do { ... } while (rc==SQLITE_SCHEMA)` loop of `readTile`. A failed prepare returns
its code at once; a row overwrites `*pTile` and `*psTile` (`malloc` is taken to succeed with
a non-null pointer); the code of finalize decides whether to go round again. `fuel` bounds
the number of rounds. -/
def readTileLoop (db : Sqlite3) (z x y : Int) :
    Nat → Nat → Option Bytes → Int → Except Fault TileRead
  | 0, _, _, _ => .error .outOfFuel
  | fuel + 1, n, tile, tileSize =>
    let r := db.tileQuery z x y n
    if r.prepareRc ≠ SQLITE_OK then .ok ⟨r.prepareRc, tile, tileSize⟩
    else
      let tile1 : Option Bytes := match r.row with
        | some b => some b
        | none => tile
      let size1 : Int := match r.row with
        | some b => (b.length : Int)
        | none => tileSize
      if r.finalizeRc = SQLITE_SCHEMA then readTileLoop db z x y fuel (n + 1) tile1 size1
      else .ok ⟨r.finalizeRc, tile1, size1⟩

/-- The function `readTile(db, z, x, y, &tile, &tileSize)`: `*pTile = NULL`, then the loop.
`tileSize0` is the value `*psTile` has on entry. -/
def readTile (fuel : Nat) (db : Sqlite3) (z x y : Int) (tileSize0 : Int) :
    Except Fault TileRead :=
  readTileLoop db z x y fuel 0 none tileSize0

/-! ## The registry -/

/-- The struct `Tileset`. -/
structure Tileset where
  opened : Int
  path : CStr
  name : CStr
  format : CStr
  isPBF : Int
  db : Sqlite3

/-- An all-zero `Tileset`, as in the static array before any registration. -/
def Tileset.zero : Tileset :=
  { opened := 0, path := [], name := [], format := [], isPBF := 0, db := Sqlite3.null }

/-- The statics `tilesets[MAX_TILESETS]` and `numLoaded`. Slot `i` of the array is
`tilesets i`; only slots below `MAX_TILESETS` exist in the program. -/
structure Globals where
  tilesets : Nat → Tileset
  numLoaded : Nat

/-- The statics at program start: a zeroed array and `numLoaded = 0`. -/
def Globals.init : Globals := { tilesets := fun _ => Tileset.zero, numLoaded := 0 }

/-- The assignment `tilesets[i] = t`. -/
def Globals.setSlot (st : Globals) (i : Nat) (t : Tileset) : Globals :=
  { st with tilesets := fun j => if j = i then t else st.tilesets j }

/-- The loop of `findTileset`, at index `i` with `remaining` indices still to visit. -/
def findTilesetFrom (st : Globals) (name : CStr) : Nat → Nat → Int
  | 0, _ => -1
  | remaining + 1, i =>
    if (st.tilesets i).name = name then (i : Int)
    else findTilesetFrom st name remaining (i + 1)

/-- The function `findTileset(name)`: the first index below `numLoaded` whose name compares
equal under `strcmp`, or `-1`. -/
def findTileset (st : Globals) (name : CStr) : Int :=
  findTilesetFrom st name st.numLoaded 0

/-- What a call of `mbtiles_add_path` leaves behind: the statics and the message passed to
`ap_log_error`, if any. The C function itself returns `NULL` on every path. -/
structure AddResult where
  globals : Globals
  errorLog : Option String

/-- The function `mbtiles_add_path(cmd, cfg, name, path)`. `stack` stands for the
uninitialised local `Tileset tileset`, of which only `opened`, `path` and `name` are
assigned before it is stored. The two `strcpy` calls write past `path[255]` or `name[40]`
when the source does not fit, and the store writes past the array when `numLoaded` exceeds
`MAX_TILESETS`; those runs are undefined. -/
def mbtiles_add_path (st : Globals) (name path : CStr) (stack : Tileset) :
    Except Fault AddResult :=
  if findTileset st name > -1 then .ok ⟨st, none⟩
  else if st.numLoaded = MAX_TILESETS then
    .ok ⟨st, some "Maximum tilesets already loaded"⟩
  else if 255 < path.length + 1 then .error .undefined
  else if 40 < name.length + 1 then .error .undefined
  else if MAX_TILESETS ≤ st.numLoaded then .error .undefined
  else
    let tileset : Tileset := { stack with opened := 0, path := path, name := name }
    .ok ⟨{ (st.setSlot st.numLoaded tileset) with numLoaded := st.numLoaded + 1 }, none⟩

/-- A run of `MbtilesAdd` directives, each handled by `mbtiles_add_path` in order. -/
def addPaths : List (CStr × CStr × Tileset) → Globals → Except Fault Globals
  | [], st => .ok st
  | (name, path, stack) :: rest, st =>
    match mbtiles_add_path st name path stack with
    | .error e => .error e
    | .ok r => addPaths rest r.globals

/-! ## Start-up -/

/-- The string `"pbf"`. -/
def pbf : CStr := ['p', 'b', 'f']

/-- What SQLite answers `processStarting` for one archive path: the code of
`sqlite3_open_v2` and the connection it stores, the code of preparing the format query, and
the text of column 0 when the step returned `SQLITE_ROW`. -/
structure Archive where
  openRc : Int
  db : Sqlite3
  formatPrepareRc : Int
  formatRow : Option CStr

/-- The loop of `processStarting`, at index `i` with `remaining` entries still to open. It
returns from the whole function at the first entry that fails to open or has no format. The
`strcpy` into `format[40]` is undefined when the text does not fit. -/
def processStartingFrom (env : CStr → Archive) : Nat → Nat → Globals → Except Fault Globals
  | 0, _, st => .ok st
  | remaining + 1, i, st =>
    let t := st.tilesets i
    let a := env t.path
    if a.openRc ≠ SQLITE_OK then .ok (st.setSlot i { t with db := a.db, opened := 0 })
    else if a.formatPrepareRc ≠ SQLITE_OK then .ok (st.setSlot i { t with db := a.db })
    else
      match a.formatRow with
      | none => .ok (st.setSlot i { t with db := a.db })
      | some fmt =>
        if 40 < fmt.length + 1 then .error .undefined
        else
          let t1 : Tileset :=
            { t with db := a.db, format := fmt, opened := 1,
                     isPBF := if fmt = pbf then 1 else 0 }
          processStartingFrom env remaining (i + 1) (st.setSlot i t1)

/-- The function `processStarting(pool, s)`. -/
def processStarting (env : CStr → Archive) (st : Globals) : Except Fault Globals :=
  processStartingFrom env st.numLoaded 0 st

/-! ## The request handler -/

/-- The values `mbtiles_handler` returns. `DECLINED`, `OK`, `HTTP_NOT_FOUND` and
`HTTP_INTERNAL_SERVER_ERROR` are constants of httpd.h, kept here as distinct symbols. -/
inductive Status where
  | DECLINED
  | OK
  | HTTP_NOT_FOUND
  | HTTP_INTERNAL_SERVER_ERROR
  deriving DecidableEq, Repr

/-- The static array `EMPTY_TILE` of 36 `unsigned char`. -/
def EMPTY_TILE : Bytes :=
  [0x1F, 0x8B, 0x08, 0x00, 0xFA, 0x78, 0x18, 0x5E, 0x00, 0x03, 0x93, 0xE2, 0xE3, 0x62, 0x8F,
   0x8F, 0x4F, 0xCD, 0x2D, 0x28, 0xA9, 0xD4, 0x68, 0x50, 0xA8, 0x60, 0x02, 0x00, 0x64, 0x71,
   0x44, 0x36, 0x10, 0x00, 0x00, 0x00]

/-- The expression `(1 << z) - y - 1` on C `int`: the shift is defined for counts `0..30`
only, and each subtraction must stay within `int`. -/
def invertY (z y : Int) : Except Fault Int :=
  if z < 0 ∨ 30 < z then .error .undefined
  else
    let p : Int := 2 ^ z.toNat
    if !inInt (p - y) then .error .undefined
    else if !inInt (p - y - 1) then .error .undefined
    else .ok (p - y - 1)

/-- Everything one call of `mbtiles_handler` does that a caller can see: the returned
status, the content type, the `Content-Encoding` header, the content length, the bytes
written with `ap_rwrite`, the key passed to `readTile` (if it was called), and whether
`sqlite3_close` was called on the connection of the tileset. -/
structure Outcome where
  status : Status
  contentType : Option CStr
  contentEncoding : Option CStr
  contentLength : Option Int
  body : Bytes
  read : Option (Int × Int × Int)
  closed : Bool
  deriving DecidableEq, Repr

/-- A return with nothing set, nothing written and nothing read. -/
def Outcome.bare (s : Status) : Outcome :=
  { status := s, contentType := none, contentEncoding := none, contentLength := none,
    body := [], read := none, closed := false }

/-- The function `mbtiles_handler(r)`, with `enabled` the flag of the directory
configuration and `uri` the field `r->uri`. Log calls are left out. -/
def mbtiles_handler (st : Globals) (enabled : Int) (uri : CStr) (fuel : Nat) :
    Except Fault Outcome :=
  if enabled = 0 then .ok (Outcome.bare .DECLINED)
  else
    match sscanf_uri uri with
    | .error e => .error e
    | .ok sc =>
      if sc.z = -1 then .ok (Outcome.bare .DECLINED)
      else
        match sc.name with
        | none => .error .undefined
        | some name =>
          let c := findTileset st name
          if c = -1 then .ok (Outcome.bare .DECLINED)
          else
            let t := st.tilesets c.toNat
            if t.opened = 0 then .ok (Outcome.bare .HTTP_INTERNAL_SERVER_ERROR)
            else
              match invertY sc.z sc.y with
              | .error e => .error e
              | .ok y =>
                match readTile fuel t.db sc.z sc.x y 0 with
                | .error e => .error e
                | .ok rd =>
                  let key : Option (Int × Int × Int) := some (sc.z, sc.x, y)
                  if rd.rc ≠ SQLITE_OK then
                    .ok { Outcome.bare .DECLINED with read := key, closed := true }
                  else
                    match rd.tile with
                    | none =>
                      if t.isPBF ≠ 0 then
                        .ok { status := .OK
                              contentType := some "application/x-protobuf".toList
                              contentEncoding := some "gzip".toList
                              contentLength := some 36
                              body := EMPTY_TILE.take 36
                              read := key
                              closed := false }
                      else .ok { Outcome.bare .HTTP_NOT_FOUND with read := key }
                    | some tile =>
                      if t.isPBF ≠ 0 then
                        .ok { status := .OK
                              contentType := some "application/x-protobuf".toList
                              contentEncoding := some "gzip".toList
                              contentLength := some rd.tileSize
                              body := tile.take rd.tileSize.toNat
                              read := key
                              closed := false }
                      else
                        .ok { status := .OK
                              contentType :=
                                if t.format = "png".toList then some "image/png".toList
                                else if t.format = "jpg".toList then some "image/jpeg".toList
                                else if t.format = "webp".toList then some "image/webp".toList
                                else some t.format
                              contentEncoding := none
                              contentLength := some rd.tileSize
                              body := tile.take rd.tileSize.toNat
                              read := key
                              closed := false }

/-! ## Running the module end to end -/

/-- Configuration, then `processStarting`, then one request: the statics are built by the
code itself from a list of `MbtilesAdd` directives and the archives found on disk. -/
def runServer (adds : List (CStr × CStr × Tileset)) (env : CStr → Archive) (enabled : Int)
    (uri : CStr) (fuel : Nat) : Except Fault Outcome :=
  match addPaths adds Globals.init with
  | .error e => .error e
  | .ok st =>
    match processStarting env st with
    | .error e => .error e
    | .ok st1 => mbtiles_handler st1 enabled uri fuel

/-- A connection holding `blob` at the key `(z, x, y)` and nothing elsewhere. -/
def dbWith (z x y : Int) (blob : Bytes) : Sqlite3 :=
  { tileQuery := fun z1 x1 y1 _ =>
      if z1 = z ∧ x1 = x ∧ y1 = y then ⟨SQLITE_OK, some blob, SQLITE_OK⟩
      else ⟨SQLITE_OK, none, SQLITE_OK⟩ }

/-- An archive that opens, reports `fmt` as its format and serves from `db`. -/
def archiveOf (fmt : CStr) (db : Sqlite3) : Archive :=
  { openRc := SQLITE_OK, db := db, formatPrepareRc := SQLITE_OK, formatRow := some fmt }

/-- An archive that cannot be opened. -/
def archiveBroken : Archive :=
  { openRc := 14, db := Sqlite3.null, formatPrepareRc := SQLITE_MISUSE, formatRow := none }

/-- The registered entries in slot order, as `(name, path)` pairs. -/
def registered (st : Globals) : List (CStr × CStr) :=
  (List.range st.numLoaded).map (fun i => ((st.tilesets i).name, (st.tilesets i).path))

/-- Twenty directives with the distinct names `n`, `nn`, `nnn`, ... -/
def twentyAdds : List (CStr × CStr × Tileset) :=
  (List.range 20).map (fun i => (List.replicate (i + 1) 'n', "/p".toList, Tileset.zero))

/-- A registry with all twenty slots taken, by the names `n`, `nn`, `nnn`, ... -/
def fullRegistry : Globals :=
  { tilesets := fun i =>
      if i < 20 then { Tileset.zero with path := "/p".toList, name := List.replicate (i + 1) 'n' }
      else Tileset.zero
    numLoaded := 20 }

/-- The directives of `twentyAdds` followed by a twenty-first with a new name. -/
def twentyOneAdds : List (CStr × CStr × Tileset) :=
  twentyAdds ++ [("zz".toList, "/q".toList, Tileset.zero)]

/-- The statics after the run `twentyOneAdds` from the initial statics. -/
def afterTwentyOne : Globals :=
  (addPaths twentyOneAdds Globals.init).toOption.getD Globals.init

/-- Statics with one registered entry, in slot 0. -/
def oneTileset (t : Tileset) : Globals :=
  { tilesets := fun i => if i = 0 then t else Tileset.zero, numLoaded := 1 }

/-- An entry as `processStarting` leaves it for an archive of format `fmt` that opened. -/
def openedTileset (name fmt : CStr) (db : Sqlite3) : Tileset :=
  { opened := 1, path := "/a.mbtiles".toList, name := name, format := fmt,
    isPBF := if fmt = pbf then 1 else 0, db := db }

/-- An entry as `mbtiles_add_path` leaves it: registered, not opened. -/
def unopenedTileset (name : CStr) : Tileset :=
  { Tileset.zero with opened := 0, path := "/a.mbtiles".toList, name := name }

/-- The request path for tileset `t` with the segments -2, 0, 0 and the suffix `.pbf`. -/
def negativeZoomUri : CStr := "/t/".toList ++ "-2/0/0.pbf".toList

/-- Registered names are pairwise distinct: two slots below `numLoaded` with the same
name are the same slot. -/
def NamesDistinct (st : Globals) : Prop :=
  ∀ i j, i < st.numLoaded → j < st.numLoaded →
    (st.tilesets i).name = (st.tilesets j).name → i = j

/-- The state `processStarting` leaves an entry in when it marks it opened: `opened` is 1
and `isPBF` says whether `format` is `"pbf"`. -/
def Tileset.Started (t : Tileset) : Prop :=
  t.opened = 1 ∧ t.isPBF = (if t.format = pbf then 1 else 0)

/-- Every entry marked opened is in the state `processStarting` leaves it in. -/
def AllStarted (st : Globals) : Prop :=
  ∀ j, (st.tilesets j).opened ≠ 0 → (st.tilesets j).Started

/-! ## Lemmas on the registry -/

theorem findTilesetFrom_spec (st : Globals) (name : CStr) :
    ∀ n i,
      (findTilesetFrom st name n i = -1 ∧
        ∀ j, i ≤ j → j < i + n → (st.tilesets j).name ≠ name) ∨
      (∃ k : Nat, findTilesetFrom st name n i = (k : Int) ∧ i ≤ k ∧ k < i + n ∧
        (st.tilesets k).name = name ∧
        ∀ j, i ≤ j → j < k → (st.tilesets j).name ≠ name) := by
  intro n
  induction n with
  | zero =>
    intro i
    left
    refine ⟨rfl, ?_⟩
    intro j h1 h2
    omega
  | succ n ih =>
    intro i
    by_cases h : (st.tilesets i).name = name
    · right
      refine ⟨i, ?_, le_refl i, by omega, h, ?_⟩
      · simp [findTilesetFrom, h]
      · intro j h1 h2
        omega
    · have hstep : findTilesetFrom st name (n + 1) i = findTilesetFrom st name n (i + 1) := by
        simp [findTilesetFrom, h]
      rcases ih (i + 1) with ⟨h1, h2⟩ | ⟨k, h1, h2, h3, h4, h5⟩
      · left
        refine ⟨by rw [hstep, h1], ?_⟩
        intro j hj1 hj2
        by_cases hji : j = i
        · subst hji
          exact h
        · exact h2 j (by omega) (by omega)
      · right
        refine ⟨k, by rw [hstep, h1], by omega, by omega, h4, ?_⟩
        intro j hj1 hj2
        by_cases hji : j = i
        · subst hji
          exact h
        · exact h5 j (by omega) hj2

theorem findTileset_eq_neg_one_iff (st : Globals) (name : CStr) :
    findTileset st name = -1 ↔ ∀ j, j < st.numLoaded → (st.tilesets j).name ≠ name := by
  unfold findTileset
  rcases findTilesetFrom_spec st name st.numLoaded 0 with ⟨h1, h2⟩ | ⟨k, h1, h2, h3, h4, h5⟩
  · constructor
    · intro _ j hj
      exact h2 j (Nat.zero_le j) (by omega)
    · intro _
      exact h1
  · constructor
    · intro h
      rw [h1] at h
      omega
    · intro h
      exact absurd h4 (h k (by omega))

theorem findTileset_found (st : Globals) (name : CStr) (c : Nat)
    (h : findTileset st name = (c : Int)) :
    c < st.numLoaded ∧ (st.tilesets c).name = name := by
  unfold findTileset at h
  rcases findTilesetFrom_spec st name st.numLoaded 0 with ⟨h1, _⟩ | ⟨k, h1, h2, h3, h4, h5⟩
  · rw [h1] at h
    omega
  · rw [h1] at h
    have hk : k = c := by exact_mod_cast h
    subst hk
    exact ⟨by omega, h4⟩

theorem findTileset_ne_neg_one (st : Globals) (name : CStr) (h : findTileset st name ≠ -1) :
    ∃ c : Nat, findTileset st name = (c : Int) ∧ c < st.numLoaded ∧
      (st.tilesets c).name = name := by
  unfold findTileset at h ⊢
  rcases findTilesetFrom_spec st name st.numLoaded 0 with ⟨h1, _⟩ | ⟨k, h1, h2, h3, h4, h5⟩
  · exact absurd h1 h
  · exact ⟨k, h1, by omega, h4⟩

theorem findTileset_gt_iff (st : Globals) (name : CStr) :
    findTileset st name > -1 ↔ findTileset st name ≠ -1 := by
  constructor
  · intro h
    omega
  · intro h
    obtain ⟨c, hc, _⟩ := findTileset_ne_neg_one st name h
    rw [hc]
    omega

/-- A registration of a name that is already there changes nothing and logs nothing. -/
theorem mbtiles_add_path_registered (st : Globals) (name path : CStr) (stack : Tileset)
    (h : findTileset st name ≠ -1) :
    mbtiles_add_path st name path stack = .ok ⟨st, none⟩ := by
  have h1 : findTileset st name > -1 := (findTileset_gt_iff st name).2 h
  simp [mbtiles_add_path, h1]

/-- A registration of a new name into a full registry changes nothing and logs the error. -/
theorem mbtiles_add_path_full (st : Globals) (name path : CStr) (stack : Tileset)
    (hfull : st.numLoaded = MAX_TILESETS) (h : findTileset st name = -1) :
    mbtiles_add_path st name path stack
      = .ok ⟨st, some "Maximum tilesets already loaded"⟩ := by
  simp [mbtiles_add_path, h, hfull]

/-- A registration of a new name that fits, into a registry with room, stores the entry in
slot `numLoaded` and increments `numLoaded`. -/
theorem mbtiles_add_path_fresh (st : Globals) (name path : CStr) (stack : Tileset)
    (h : findTileset st name = -1) (hroom : st.numLoaded < MAX_TILESETS)
    (hname : name.length < 40) (hpath : path.length < 255) :
    mbtiles_add_path st name path stack
      = .ok ⟨{ (st.setSlot st.numLoaded
                  { stack with opened := 0, path := path, name := name }) with
                numLoaded := st.numLoaded + 1 }, none⟩ := by
  have h1 : st.numLoaded ≠ MAX_TILESETS := by omega
  have h2 : ¬ (255 < path.length + 1) := by omega
  have h3 : ¬ (40 < name.length + 1) := by omega
  have h4 : ¬ (MAX_TILESETS ≤ st.numLoaded) := by omega
  simp [mbtiles_add_path, h, h1, h2, h3, h4]

/-- Every defined outcome of `mbtiles_add_path` is one of the three above. -/
theorem mbtiles_add_path_cases (st : Globals) (name path : CStr) (stack : Tileset)
    (r : AddResult) (h : mbtiles_add_path st name path stack = .ok r) :
    r.globals = st ∨
    (findTileset st name = -1 ∧ st.numLoaded < MAX_TILESETS ∧
      r.globals = { (st.setSlot st.numLoaded
                      { stack with opened := 0, path := path, name := name }) with
                    numLoaded := st.numLoaded + 1 }) := by
  by_cases h0 : findTileset st name ≠ -1
  · rw [mbtiles_add_path_registered st name path stack h0] at h
    left
    cases h
    rfl
  · have h0 : findTileset st name = -1 := by simpa using h0
    by_cases h1 : st.numLoaded = MAX_TILESETS
    · rw [mbtiles_add_path_full st name path stack h1 h0] at h
      left
      cases h
      rfl
    · by_cases h2 : 255 < path.length + 1
      · simp [mbtiles_add_path, h0, h1, h2] at h
      · by_cases h3 : 40 < name.length + 1
        · simp [mbtiles_add_path, h0, h1, h2, h3] at h
        · by_cases h4 : MAX_TILESETS ≤ st.numLoaded
          · simp [mbtiles_add_path, h0, h1, h2, h3, h4] at h
          · right
            have hroom : st.numLoaded < MAX_TILESETS := by omega
            rw [mbtiles_add_path_fresh st name path stack h0 hroom (by omega) (by omega)] at h
            refine ⟨h0, hroom, ?_⟩
            cases h
            rfl

/-- One registration keeps `numLoaded` within the array and the names distinct. -/
theorem mbtiles_add_path_inv (st : Globals) (name path : CStr) (stack : Tileset)
    (r : AddResult) (h : mbtiles_add_path st name path stack = .ok r)
    (hb : st.numLoaded ≤ MAX_TILESETS) (hd : NamesDistinct st) :
    r.globals.numLoaded ≤ MAX_TILESETS ∧ NamesDistinct r.globals := by
  rcases mbtiles_add_path_cases st name path stack r h with h1 | ⟨h0, hroom, h1⟩
  · rw [h1]
    exact ⟨hb, hd⟩
  · rw [h1]
    refine ⟨by simpa using hroom, ?_⟩
    have hfresh := (findTileset_eq_neg_one_iff st name).1 h0
    intro i j hi hj hij
    simp only [Globals.setSlot] at hi hj hij
    by_cases hi1 : i = st.numLoaded <;> by_cases hj1 : j = st.numLoaded
    · omega
    · simp [hi1, hj1] at hij
      exact absurd hij.symm (hfresh j (by omega))
    · simp [hi1, hj1] at hij
      exact absurd hij (hfresh i (by omega))
    · simp [hi1, hj1] at hij
      exact hd i j (by omega) (by omega) hij

/-- A run of registrations keeps `numLoaded` within the array and the names distinct. -/
theorem addPaths_inv (adds : List (CStr × CStr × Tileset)) :
    ∀ st st1, addPaths adds st = .ok st1 →
      st.numLoaded ≤ MAX_TILESETS → NamesDistinct st →
      st1.numLoaded ≤ MAX_TILESETS ∧ NamesDistinct st1 := by
  induction adds with
  | nil =>
    intro st st1 h hb hd
    simp [addPaths] at h
    subst h
    exact ⟨hb, hd⟩
  | cons a rest ih =>
    intro st st1 h hb hd
    obtain ⟨name, path, stack⟩ := a
    simp only [addPaths] at h
    cases hr : mbtiles_add_path st name path stack with
    | error e => simp [hr] at h
    | ok r =>
      simp only [hr] at h
      obtain ⟨hb1, hd1⟩ := mbtiles_add_path_inv st name path stack r hr hb hd
      exact ih r.globals st1 h hb1 hd1

theorem init_inv : Globals.init.numLoaded ≤ MAX_TILESETS ∧ NamesDistinct Globals.init := by
  refine ⟨by simp [Globals.init], ?_⟩
  intro i j hi
  simp [Globals.init] at hi

/-! ## Lemmas on start-up and on the storage read -/

theorem setSlot_allStarted (st : Globals) (i : Nat) (t : Tileset) (h : AllStarted st)
    (ht : t.opened ≠ 0 → t.Started) : AllStarted (st.setSlot i t) := by
  intro j hj
  simp only [Globals.setSlot] at hj ⊢
  by_cases hji : j = i
  · simp only [hji, if_true] at hj ⊢
    exact ht hj
  · simp only [hji, if_false] at hj ⊢
    exact h j hj

theorem init_allStarted : AllStarted Globals.init := by
  intro j hj
  simp [Globals.init, Tileset.zero] at hj

/-- A registration stores its entry with `opened = 0`, so it keeps `AllStarted`. -/
theorem mbtiles_add_path_allStarted (st : Globals) (name path : CStr) (stack : Tileset)
    (r : AddResult) (h : mbtiles_add_path st name path stack = .ok r) (hs : AllStarted st) :
    AllStarted r.globals := by
  rcases mbtiles_add_path_cases st name path stack r h with h1 | ⟨_, _, h1⟩
  · rw [h1]
    exact hs
  · rw [h1]
    have := setSlot_allStarted st st.numLoaded
      { stack with opened := 0, path := path, name := name } hs (by simp)
    exact this

theorem addPaths_allStarted (adds : List (CStr × CStr × Tileset)) :
    ∀ st st1, addPaths adds st = .ok st1 → AllStarted st → AllStarted st1 := by
  induction adds with
  | nil =>
    intro st st1 h hs
    simp [addPaths] at h
    subst h
    exact hs
  | cons a rest ih =>
    intro st st1 h hs
    obtain ⟨name, path, stack⟩ := a
    simp only [addPaths] at h
    cases hr : mbtiles_add_path st name path stack with
    | error e => simp [hr] at h
    | ok r =>
      simp only [hr] at h
      exact ih r.globals st1 h (mbtiles_add_path_allStarted st name path stack r hr hs)

theorem processStartingFrom_allStarted (env : CStr → Archive) :
    ∀ n i st st1, processStartingFrom env n i st = .ok st1 → AllStarted st →
      AllStarted st1 := by
  intro n
  induction n with
  | zero =>
    intro i st st1 h hs
    simp [processStartingFrom] at h
    subst h
    exact hs
  | succ n ih =>
    intro i st st1 h hs
    simp only [processStartingFrom] at h
    by_cases h1 : (env (st.tilesets i).path).openRc ≠ SQLITE_OK
    · rw [if_pos h1] at h
      cases h
      exact setSlot_allStarted st i _ hs (by simp)
    · rw [if_neg h1] at h
      by_cases h2 : (env (st.tilesets i).path).formatPrepareRc ≠ SQLITE_OK
      · rw [if_pos h2] at h
        cases h
        exact setSlot_allStarted st i _ hs (fun ho => hs i ho)
      · rw [if_neg h2] at h
        cases h3 : (env (st.tilesets i).path).formatRow with
        | none =>
          simp only [h3] at h
          cases h
          exact setSlot_allStarted st i _ hs (fun ho => hs i ho)
        | some fmt =>
          simp only [h3] at h
          by_cases h4 : 40 < fmt.length + 1
          · rw [if_pos h4] at h
            cases h
          · rw [if_neg h4] at h
            refine ih (i + 1) _ st1 h (setSlot_allStarted st i _ hs ?_)
            intro _
            exact ⟨rfl, rfl⟩

/-- Whatever `processStarting` marks opened has `isPBF` in step with `format`. -/
theorem processStarting_allStarted (env : CStr → Archive) (st st1 : Globals)
    (h : processStarting env st = .ok st1) (hs : AllStarted st) : AllStarted st1 :=
  processStartingFrom_allStarted env st.numLoaded 0 st st1 h hs

/-- After configuration and start-up from the initial statics, every entry marked opened
has `opened = 1` and `isPBF` in step with `format`. -/
theorem startup_allStarted (adds : List (CStr × CStr × Tileset)) (env : CStr → Archive)
    (st st1 : Globals) (h1 : addPaths adds Globals.init = .ok st)
    (h2 : processStarting env st = .ok st1) : AllStarted st1 :=
  processStarting_allStarted env st st1 h2
    (addPaths_allStarted adds Globals.init st h1 init_allStarted)

theorem readTileLoop_size (db : Sqlite3) (z x y : Int) :
    ∀ fuel n tile size rd, readTileLoop db z x y fuel n tile size = .ok rd →
      (∀ b, tile = some b → size = (b.length : Int)) →
      ∀ b, rd.tile = some b → rd.tileSize = (b.length : Int) := by
  intro fuel
  induction fuel with
  | zero =>
    intro n tile size rd h
    simp [readTileLoop] at h
  | succ fuel ih =>
    intro n tile size rd h hinv
    simp only [readTileLoop] at h
    by_cases h1 : (db.tileQuery z x y n).prepareRc ≠ SQLITE_OK
    · rw [if_pos h1] at h
      cases h
      exact hinv
    · rw [if_neg h1] at h
      have hinv1 : ∀ b,
          (match (db.tileQuery z x y n).row with
            | some b => some b
            | none => tile) = some b →
          (match (db.tileQuery z x y n).row with
            | some b => (b.length : Int)
            | none => size) = (b.length : Int) := by
        intro b hb
        cases hrow : (db.tileQuery z x y n).row with
        | none =>
          simp only [hrow] at hb ⊢
          exact hinv b hb
        | some b1 =>
          simp only [hrow] at hb ⊢
          cases hb
          rfl
      by_cases h2 : (db.tileQuery z x y n).finalizeRc = SQLITE_SCHEMA
      · rw [if_pos h2] at h
        exact ih _ _ _ rd h hinv1
      · rw [if_neg h2] at h
        cases h
        exact hinv1

/-- When `readTile` hands back a tile, `*psTile` is its length. -/
theorem readTile_size (fuel : Nat) (db : Sqlite3) (z x y size0 : Int) (rd : TileRead)
    (b : Bytes) (h : readTile fuel db z x y size0 = .ok rd) (hb : rd.tile = some b) :
    rd.tileSize = (b.length : Int) :=
  readTileLoop_size db z x y fuel 0 none size0 rd h (by simp) b hb

/-- One round that prepares, steps and finalizes with `SQLITE_OK` ends `readTile`. -/
theorem readTile_first_round (fuel : Nat) (db : Sqlite3) (z x y size0 : Int)
    (row : Option Bytes) (h : db.tileQuery z x y 0 = ⟨SQLITE_OK, row, SQLITE_OK⟩) :
    readTile (fuel + 1) db z x y size0
      = .ok ⟨SQLITE_OK,
             row,
             match row with
             | some b => (b.length : Int)
             | none => size0⟩ := by
  cases row with
  | none => simp [readTile, readTileLoop, h, SQLITE_OK, SQLITE_SCHEMA]
  | some b => simp [readTile, readTileLoop, h, SQLITE_OK, SQLITE_SCHEMA]

/-- For zooms `0..30` and a row inside the grid, `(1 << z) - y - 1` is defined and is
`2^z - y - 1`. -/
theorem invertY_inside (z y : Int) (hz0 : 0 ≤ z) (hz30 : z ≤ 30) (hy0 : 0 ≤ y)
    (hy : y < 2 ^ z.toNat) : invertY z y = .ok (2 ^ z.toNat - y - 1) := by
  have hn : z.toNat ≤ 30 := by omega
  have hp : (2 : Int) ^ z.toNat ≤ 2 ^ 30 := by
    exact pow_le_pow_right₀ (by norm_num) hn
  have hp1 : (2 : Int) ^ 30 = 1073741824 := by norm_num
  have h1 : ¬ (z < 0 ∨ 30 < z) := by omega
  have h2 : inInt (2 ^ z.toNat - y) = true := by
    simp only [inInt, INT_MIN, INT_MAX, Bool.and_eq_true, decide_eq_true_eq]
    omega
  have h3 : inInt (2 ^ z.toNat - y - 1) = true := by
    simp only [inInt, INT_MIN, INT_MAX, Bool.and_eq_true, decide_eq_true_eq]
    omega
  simp [invertY, h1, h2, h3]

/-- Past the checks of `mbtiles_handler` (enabled scope, `z` assigned, tileset found and
opened, row inverted, `readTile` returned), the outcome carries the key that was read. -/
theorem mbtiles_handler_read (st : Globals) (en : Int) (uri : CStr) (fuel : Nat)
    (name : CStr) (z x y y1 : Int) (c : Nat) (rd : TileRead)
    (hen : en ≠ 0) (hs : sscanf_uri uri = .ok ⟨some name, z, x, y⟩) (hz : z ≠ -1)
    (hc : findTileset st name = (c : Int)) (ho : (st.tilesets c).opened ≠ 0)
    (hy : invertY z y = .ok y1)
    (hr : readTile fuel (st.tilesets c).db z x y1 0 = .ok rd) :
    ∃ o, mbtiles_handler st en uri fuel = .ok o ∧ o.read = some (z, x, y1) := by
  have hne : (c : Int) ≠ -1 := by omega
  simp only [mbtiles_handler, hen, hs, hz, hc, hne, ho, hy, hr, if_false, Int.toNat_ofNat]
  by_cases h1 : rd.rc ≠ SQLITE_OK
  · simp [h1]
  · simp only [h1, if_false]
    cases htile : rd.tile with
    | none =>
      by_cases h2 : (st.tilesets c).isPBF ≠ 0
      · simp [h2]
      · simp [h2]
    | some b =>
      by_cases h2 : (st.tilesets c).isPBF ≠ 0
      · simp [h2]
      · simp [h2]

/-! ## The registry claims -/

/-- C3, as amended. From a registry in which `name` is not yet registered and which has
room (`numLoaded < MAX_TILESETS`), with `name` of at most 39 and `p1` of at most 254
characters, `mbtiles_add_path(name, p1)` followed by `mbtiles_add_path(name, p2)` leaves
exactly one entry with that name, in slot `numLoaded`, with path `p1`, and the older slots
as they were. A registration of an already registered name returns the statics unchanged,
whatever the path. After any run of registrations from the initial statics the registered
names are pairwise distinct. -/
theorem C3_registry_uniqueness :
    (∀ (st : Globals) (name p1 p2 : CStr) (s1 s2 : Tileset),
      findTileset st name = -1 → st.numLoaded < MAX_TILESETS →
      name.length < 40 → p1.length < 255 →
      ∃ st1 : Globals,
        mbtiles_add_path st name p1 s1 = .ok ⟨st1, none⟩ ∧
        mbtiles_add_path st1 name p2 s2 = .ok ⟨st1, none⟩ ∧
        st1.numLoaded = st.numLoaded + 1 ∧
        (∀ i, i < st1.numLoaded → ((st1.tilesets i).name = name ↔ i = st.numLoaded)) ∧
        (st1.tilesets st.numLoaded).path = p1 ∧
        (∀ i, i < st.numLoaded → st1.tilesets i = st.tilesets i)) ∧
    (∀ (st : Globals) (name path : CStr) (stack : Tileset),
      findTileset st name ≠ -1 → mbtiles_add_path st name path stack = .ok ⟨st, none⟩) ∧
    (∀ (adds : List (CStr × CStr × Tileset)) (st : Globals),
      addPaths adds Globals.init = .ok st → NamesDistinct st) := by
  refine ⟨?_, ?_, ?_⟩
  · intro st name p1 p2 s1 s2 hfresh hroom hname hpath
    have hno := (findTileset_eq_neg_one_iff st name).1 hfresh
    refine ⟨_, mbtiles_add_path_fresh st name p1 s1 hfresh hroom hname hpath, ?_, rfl, ?_, ?_, ?_⟩
    · apply mbtiles_add_path_registered
      intro hneg
      have h := (findTileset_eq_neg_one_iff _ name).1 hneg st.numLoaded (by simp)
      simp [Globals.setSlot] at h
    · intro i hi
      simp only [Globals.setSlot] at hi ⊢
      by_cases h : i = st.numLoaded
      · simp [h]
      · simp only [h, if_false, iff_false]
        exact hno i (by omega)
    · simp [Globals.setSlot]
    · intro i hi
      have h : i ≠ st.numLoaded := by omega
      simp [Globals.setSlot, h]
  · intro st name path stack h
    exact mbtiles_add_path_registered st name path stack h
  · intro adds st h
    exact (addPaths_inv adds Globals.init st h init_inv.1 init_inv.2).2

/-- C3 at a concrete input: registering `a` twice into the empty registry, registering `n`
again into the full one, and the names after the run of twenty-one directives. -/
theorem C3_registry_uniqueness_witness :
    (∃ st1 : Globals,
        mbtiles_add_path Globals.init "a".toList "/p1".toList Tileset.zero = .ok ⟨st1, none⟩ ∧
        mbtiles_add_path st1 "a".toList "/p2".toList Tileset.zero = .ok ⟨st1, none⟩ ∧
        st1.numLoaded = Globals.init.numLoaded + 1 ∧
        (∀ i, i < st1.numLoaded →
          ((st1.tilesets i).name = "a".toList ↔ i = Globals.init.numLoaded)) ∧
        (st1.tilesets Globals.init.numLoaded).path = "/p1".toList ∧
        (∀ i, i < Globals.init.numLoaded → st1.tilesets i = Globals.init.tilesets i)) ∧
    mbtiles_add_path fullRegistry "n".toList "/other".toList Tileset.zero
      = .ok ⟨fullRegistry, none⟩ ∧
    (addPaths twentyOneAdds Globals.init = .ok afterTwentyOne ∧
      NamesDistinct afterTwentyOne) :=
  ⟨C3_registry_uniqueness.1 Globals.init "a".toList "/p1".toList "/p2".toList
      Tileset.zero Tileset.zero (by rfl) (by decide) (by decide) (by decide),
   C3_registry_uniqueness.2.1 fullRegistry "n".toList "/other".toList Tileset.zero (by decide),
   ⟨by rfl, C3_registry_uniqueness.2.2 twentyOneAdds afterTwentyOne (by rfl)⟩⟩

/-- C3 as stated fails. (1) When `a` is already registered with path `/p0`, the two calls
with `/p1` and `/p2` leave the entry with `/p0`, not `/p1`. (2) When the registry is full
and `zz` is new, the two calls leave no entry named `zz`. (3) A name of 40 characters does
not fit `name[40]`, so the first call is undefined. -/
theorem C3_registry_uniqueness_counterexample :
    (addPaths [("a".toList, "/p0".toList, Tileset.zero), ("a".toList, "/p1".toList, Tileset.zero),
               ("a".toList, "/p2".toList, Tileset.zero)] Globals.init).map registered
      = .ok [("a".toList, "/p0".toList)] ∧
    (addPaths (twentyAdds ++ [("zz".toList, "/p1".toList, Tileset.zero),
               ("zz".toList, "/p2".toList, Tileset.zero)]) Globals.init).map
        (fun st => (st.numLoaded, findTileset st "zz".toList))
      = .ok (20, -1) ∧
    (mbtiles_add_path Globals.init (List.replicate 40 'n') "/p1".toList Tileset.zero).map
        (fun r => r.globals.numLoaded)
      = .error .undefined := by
  refine ⟨by rfl, by rfl, by rfl⟩

/-- C4. When `numLoaded` is `MAX_TILESETS` (20) and `name` is not registered,
`mbtiles_add_path` logs "Maximum tilesets already loaded" and returns the statics unchanged
(`numLoaded` and every entry), for every name and path. After any run of registrations
from the initial statics, `numLoaded` is at most 20. -/
theorem C4_capacity_bound :
    (∀ (st : Globals) (name path : CStr) (stack : Tileset),
      st.numLoaded = MAX_TILESETS → findTileset st name = -1 →
      mbtiles_add_path st name path stack
        = .ok ⟨st, some "Maximum tilesets already loaded"⟩) ∧
    (∀ (adds : List (CStr × CStr × Tileset)) (st : Globals),
      addPaths adds Globals.init = .ok st → st.numLoaded ≤ 20) := by
  refine ⟨?_, ?_⟩
  · intro st name path stack hfull hfresh
    exact mbtiles_add_path_full st name path stack hfull hfresh
  · intro adds st h
    exact (addPaths_inv adds Globals.init st h init_inv.1 init_inv.2).1

/-- C4 at a concrete input: a twenty-first name offered to the full registry, and the run
of twenty-one directives, which ends with `numLoaded = 20`. -/
theorem C4_capacity_bound_witness :
    mbtiles_add_path fullRegistry "zz".toList "/q".toList Tileset.zero
      = .ok ⟨fullRegistry, some "Maximum tilesets already loaded"⟩ ∧
    (addPaths twentyOneAdds Globals.init = .ok afterTwentyOne ∧
      afterTwentyOne.numLoaded = 20 ∧ afterTwentyOne.numLoaded ≤ 20) :=
  ⟨C4_capacity_bound.1 fullRegistry "zz".toList "/q".toList Tileset.zero (by rfl) (by rfl),
   ⟨by rfl, by rfl, C4_capacity_bound.2 twentyOneAdds afterTwentyOne (by rfl)⟩⟩

/-! ## The handler claims -/

/-- C1. The path `/world/3/2/1.pbf` is scanned to name `world`, z 3, x 2, y 1, and
`/onlyname` leaves `z` at -1, so the handler declines it in every state. But
`/world/3/2/1`, without the dot, is scanned to the same four values, and the handler goes
on to serve the tile at key (3, 2, 6) instead of declining. -/
theorem C1_path_matching :
    sscanf_uri "/world/3/2/1.pbf".toList = .ok ⟨some "world".toList, 3, 2, 1⟩ ∧
    (∀ (st : Globals) (en : Int) (fuel : Nat),
      mbtiles_handler st en "/onlyname".toList fuel = .ok (Outcome.bare .DECLINED)) ∧
    sscanf_uri "/world/3/2/1".toList = .ok ⟨some "world".toList, 3, 2, 1⟩ ∧
    runServer [("world".toList, "/w.mbtiles".toList, Tileset.zero)]
        (fun _ => archiveOf pbf (dbWith 3 2 6 [1, 2, 3])) 1 "/world/3/2/1".toList 1
      = .ok { status := .OK
              contentType := some "application/x-protobuf".toList
              contentEncoding := some "gzip".toList
              contentLength := some 3
              body := [1, 2, 3]
              read := some (3, 2, 6)
              closed := false } := by
  refine ⟨by rfl, ?_, by rfl, by rfl⟩
  intro st en fuel
  have hs : sscanf_uri "/onlyname".toList = .ok ⟨some "onlyname".toList, -1, 0, 0⟩ := by rfl
  by_cases hen : en = 0
  · simp [mbtiles_handler, hen]
  · rw [mbtiles_handler, if_neg hen, hs]
    rfl

/-- C2, as amended. For a zoom `0 ≤ z ≤ 30` and a row `0 ≤ y < 2^z`, a request in an
enabled scope against an opened tileset makes `mbtiles_handler` pass the row `2^z - y - 1`
to `readTile`; that row lies in `[0, 2^z)` and the same expression applied to it gives
back `y`. -/
theorem C2_coordinate_transform (st : Globals) (en : Int) (uri : CStr) (fuel : Nat)
    (name : CStr) (z x y : Int) (c : Nat) (rd : TileRead)
    (hen : en ≠ 0) (hs : sscanf_uri uri = .ok ⟨some name, z, x, y⟩)
    (hz0 : 0 ≤ z) (hz30 : z ≤ 30) (hy0 : 0 ≤ y) (hy : y < 2 ^ z.toNat)
    (hc : findTileset st name = (c : Int)) (ho : (st.tilesets c).opened ≠ 0)
    (hr : readTile fuel (st.tilesets c).db z x (2 ^ z.toNat - y - 1) 0 = .ok rd) :
    (∃ o, mbtiles_handler st en uri fuel = .ok o ∧
      o.read = some (z, x, 2 ^ z.toNat - y - 1)) ∧
    invertY z y = .ok (2 ^ z.toNat - y - 1) ∧
    0 ≤ (2 : Int) ^ z.toNat - y - 1 ∧ (2 : Int) ^ z.toNat - y - 1 < 2 ^ z.toNat ∧
    invertY z (2 ^ z.toNat - y - 1) = .ok y := by
  have h1 := invertY_inside z y hz0 hz30 hy0 hy
  have h2 := invertY_inside z (2 ^ z.toNat - y - 1) hz0 hz30 (by omega) (by omega)
  refine ⟨mbtiles_handler_read st en uri fuel name z x y _ c rd hen hs (by omega) hc ho h1 hr,
    h1, by omega, by omega, ?_⟩
  rw [h2]
  congr 1
  omega

/-- C2 at a concrete input: zoom 5, row 24, an opened vector tileset `vt`. -/
theorem C2_coordinate_transform_witness :
    (∃ o, mbtiles_handler (oneTileset (openedTileset "vt".toList pbf (dbWith 5 10 7 [9, 9]))) 1
        "/vt/5/10/24.pbf".toList 1 = .ok o ∧
      o.read = some (5, 10, 2 ^ (5 : Int).toNat - 24 - 1)) ∧
    invertY 5 24 = .ok (2 ^ (5 : Int).toNat - 24 - 1) ∧
    0 ≤ (2 : Int) ^ (5 : Int).toNat - 24 - 1 ∧
    (2 : Int) ^ (5 : Int).toNat - 24 - 1 < 2 ^ (5 : Int).toNat ∧
    invertY 5 (2 ^ (5 : Int).toNat - 24 - 1) = .ok 24 :=
  C2_coordinate_transform (oneTileset (openedTileset "vt".toList pbf (dbWith 5 10 7 [9, 9]))) 1
    "/vt/5/10/24.pbf".toList 1 "vt".toList 5 10 24 0 ⟨SQLITE_OK, some [9, 9], 2⟩
    (by decide) (by rfl) (by decide) (by decide) (by decide) (by decide) (by rfl) (by decide)
    (by rfl)

/-- C2 as stated fails for zooms above 30. At zoom 40 and row 0 the claimed row
`2^40 - 0 - 1` is not a C `int`, the shift `1 << 40` is undefined, and the handler has no
defined outcome for `/t/40/0/0.pbf` against an opened tileset. -/
theorem C2_coordinate_transform_counterexample :
    inInt (2 ^ 40 - 0 - 1) = false ∧
    invertY 40 0 = .error .undefined ∧
    runServer [("t".toList, "/t.mbtiles".toList, Tileset.zero)]
        (fun _ => archiveOf pbf (dbWith 3 2 6 [1, 2, 3])) 1 "/t/40/0/0.pbf".toList 1
      = .error .undefined := by
  refine ⟨by rfl, by rfl, by rfl⟩

/-- C5. A request the handler matches (enabled scope, `z` assigned) against an opened
vector tileset (format `pbf`), whose read at the inverted row returns `SQLITE_OK` with no
row, gets status `OK`, content type `application/x-protobuf`, `Content-Encoding: gzip`,
content length 36 and the 36 bytes of `EMPTY_TILE` as body. -/
theorem C5_vector_not_found_fallback (st : Globals) (en : Int) (uri : CStr) (fuel : Nat)
    (name : CStr) (z x y y1 size : Int) (c : Nat)
    (hen : en ≠ 0) (hs : sscanf_uri uri = .ok ⟨some name, z, x, y⟩) (hz : z ≠ -1)
    (hc : findTileset st name = (c : Int))
    (hst : (st.tilesets c).Started) (hfmt : (st.tilesets c).format = pbf)
    (hy : invertY z y = .ok y1)
    (hr : readTile fuel (st.tilesets c).db z x y1 0 = .ok ⟨SQLITE_OK, none, size⟩) :
    mbtiles_handler st en uri fuel
      = .ok { status := .OK
              contentType := some "application/x-protobuf".toList
              contentEncoding := some "gzip".toList
              contentLength := some 36
              body := EMPTY_TILE
              read := some (z, x, y1)
              closed := false } ∧
    EMPTY_TILE.length = 36 := by
  have hne : (c : Int) ≠ -1 := by omega
  have ho : (st.tilesets c).opened ≠ 0 := by rw [hst.1]; decide
  have hp : (st.tilesets c).isPBF ≠ 0 := by rw [hst.2, if_pos hfmt]; decide
  refine ⟨?_, by rfl⟩
  simp only [mbtiles_handler, hs, hc, hy, hr, Int.toNat_ofNat]
  rw [if_neg hen, if_neg hz, if_neg hne, if_neg ho, if_neg (by simp), if_pos hp]
  rfl

/-- C5 at a concrete input: the opened vector tileset `vt` has nothing at (5, 10, 28). -/
theorem C5_vector_not_found_fallback_witness :
    mbtiles_handler (oneTileset (openedTileset "vt".toList pbf (dbWith 5 10 7 [9, 9]))) 1
        "/vt/5/10/3.pbf".toList 1
      = .ok { status := .OK
              contentType := some "application/x-protobuf".toList
              contentEncoding := some "gzip".toList
              contentLength := some 36
              body := EMPTY_TILE
              read := some (5, 10, 28)
              closed := false } ∧
    EMPTY_TILE.length = 36 :=
  C5_vector_not_found_fallback
    (oneTileset (openedTileset "vt".toList pbf (dbWith 5 10 7 [9, 9]))) 1
    "/vt/5/10/3.pbf".toList 1 "vt".toList 5 10 3 28 0 0
    (by decide) (by rfl) (by decide) (by rfl) ⟨by rfl, by rfl⟩ (by rfl) (by rfl) (by rfl)

/-- C6. A request the handler matches against an opened raster tileset (format other than
`pbf`), whose read returns `SQLITE_OK` with a row, gets status `OK`, no `Content-Encoding`,
the stored bytes as body with their length as content length, and as content type
`image/png` for format `png`, `image/jpeg` for `jpg`, `image/webp` for `webp`, and the
format string itself for any other format. -/
theorem C6_content_type_mapping (st : Globals) (en : Int) (uri : CStr) (fuel : Nat)
    (name : CStr) (z x y y1 size : Int) (c : Nat) (tile : Bytes)
    (hen : en ≠ 0) (hs : sscanf_uri uri = .ok ⟨some name, z, x, y⟩) (hz : z ≠ -1)
    (hc : findTileset st name = (c : Int))
    (hst : (st.tilesets c).Started) (hfmt : (st.tilesets c).format ≠ pbf)
    (hy : invertY z y = .ok y1)
    (hr : readTile fuel (st.tilesets c).db z x y1 0 = .ok ⟨SQLITE_OK, some tile, size⟩) :
    ∃ o, mbtiles_handler st en uri fuel = .ok o ∧ o.status = .OK ∧
      ((st.tilesets c).format = "png".toList → o.contentType = some "image/png".toList) ∧
      ((st.tilesets c).format = "jpg".toList → o.contentType = some "image/jpeg".toList) ∧
      ((st.tilesets c).format = "webp".toList → o.contentType = some "image/webp".toList) ∧
      ((st.tilesets c).format ≠ "png".toList → (st.tilesets c).format ≠ "jpg".toList →
        (st.tilesets c).format ≠ "webp".toList →
        o.contentType = some (st.tilesets c).format) ∧
      o.contentEncoding = none ∧ o.contentLength = some (tile.length : Int) ∧
      o.body = tile ∧ o.read = some (z, x, y1) := by
  have hne : (c : Int) ≠ -1 := by omega
  have ho : (st.tilesets c).opened ≠ 0 := by rw [hst.1]; decide
  have hp : ¬ ((st.tilesets c).isPBF ≠ 0) := by rw [hst.2, if_neg hfmt]; decide
  have hsize : size = (tile.length : Int) :=
    readTile_size fuel _ z x y1 0 _ tile hr rfl
  subst hsize
  simp only [mbtiles_handler, hs, hc, hy, hr, Int.toNat_ofNat]
  rw [if_neg hen, if_neg hz, if_neg hne, if_neg ho, if_neg (by simp), if_neg hp]
  refine ⟨_, rfl, rfl, ?_, ?_, ?_, ?_, rfl, rfl, ?_, rfl⟩
  · intro h
    simp only [h]
    rfl
  · intro h
    simp only [h]
    rfl
  · intro h
    simp only [h]
    rfl
  · intro h1 h2 h3
    simp only [if_neg h1, if_neg h2, if_neg h3]
  · simp

/-- C6 at a concrete input: the opened raster tileset `dem` of format `png` holds three
bytes at (5, 10, 7). -/
theorem C6_content_type_mapping_witness :
    ∃ o, mbtiles_handler (oneTileset (openedTileset "dem".toList "png".toList
            (dbWith 5 10 7 [7, 8, 9]))) 1 "/dem/5/10/24.png".toList 1 = .ok o ∧
      o.status = .OK ∧
      ("png".toList = "png".toList → o.contentType = some "image/png".toList) ∧
      ("png".toList = "jpg".toList → o.contentType = some "image/jpeg".toList) ∧
      ("png".toList = "webp".toList → o.contentType = some "image/webp".toList) ∧
      ("png".toList ≠ "png".toList → "png".toList ≠ "jpg".toList →
        "png".toList ≠ "webp".toList → o.contentType = some "png".toList) ∧
      o.contentEncoding = none ∧ o.contentLength = some (([7, 8, 9] : Bytes).length : Int) ∧
      o.body = [7, 8, 9] ∧ o.read = some (5, 10, 7) :=
  C6_content_type_mapping
    (oneTileset (openedTileset "dem".toList "png".toList (dbWith 5 10 7 [7, 8, 9]))) 1
    "/dem/5/10/24.png".toList 1 "dem".toList 5 10 24 7 3 0 [7, 8, 9]
    (by decide) (by rfl) (by decide) (by rfl) ⟨by rfl, by rfl⟩ (by decide) (by rfl) (by rfl)

/-- C7. A request the handler matches against an opened raster tileset (format other than
`pbf`), whose read at the inverted row returns `SQLITE_OK` with no row, gets
`HTTP_NOT_FOUND` with no body, no content type, no content length and no encoding. -/
theorem C7_raster_not_found (st : Globals) (en : Int) (uri : CStr) (fuel : Nat)
    (name : CStr) (z x y y1 size : Int) (c : Nat)
    (hen : en ≠ 0) (hs : sscanf_uri uri = .ok ⟨some name, z, x, y⟩) (hz : z ≠ -1)
    (hc : findTileset st name = (c : Int))
    (hst : (st.tilesets c).Started) (hfmt : (st.tilesets c).format ≠ pbf)
    (hy : invertY z y = .ok y1)
    (hr : readTile fuel (st.tilesets c).db z x y1 0 = .ok ⟨SQLITE_OK, none, size⟩) :
    mbtiles_handler st en uri fuel
      = .ok { status := .HTTP_NOT_FOUND
              contentType := none
              contentEncoding := none
              contentLength := none
              body := []
              read := some (z, x, y1)
              closed := false } := by
  have hne : (c : Int) ≠ -1 := by omega
  have ho : (st.tilesets c).opened ≠ 0 := by rw [hst.1]; decide
  have hp : ¬ ((st.tilesets c).isPBF ≠ 0) := by rw [hst.2, if_neg hfmt]; decide
  simp only [mbtiles_handler, hs, hc, hy, hr, Int.toNat_ofNat]
  rw [if_neg hen, if_neg hz, if_neg hne, if_neg ho, if_neg (by simp), if_neg hp]
  rfl

/-- C7 at a concrete input: the opened raster tileset `dem` has nothing at (5, 10, 28). -/
theorem C7_raster_not_found_witness :
    mbtiles_handler (oneTileset (openedTileset "dem".toList "png".toList
          (dbWith 5 10 7 [7, 8, 9]))) 1 "/dem/5/10/3.png".toList 1
      = .ok { status := .HTTP_NOT_FOUND
              contentType := none
              contentEncoding := none
              contentLength := none
              body := []
              read := some (5, 10, 28)
              closed := false } :=
  C7_raster_not_found
    (oneTileset (openedTileset "dem".toList "png".toList (dbWith 5 10 7 [7, 8, 9]))) 1
    "/dem/5/10/3.png".toList 1 "dem".toList 5 10 3 28 0 0
    (by decide) (by rfl) (by decide) (by rfl) ⟨by rfl, by rfl⟩ (by decide) (by rfl) (by rfl)

/-- C8, as amended. In an enabled scope, a request whose path assigns `z` and whose name
is a registered tileset with `opened = 0` gets `HTTP_INTERNAL_SERVER_ERROR`, with nothing
set or written, no row inverted and no storage read: the outcome does not depend on `z`,
on the connection or on `fuel`. -/
theorem C8_unopened_tileset (st : Globals) (en : Int) (uri : CStr) (fuel : Nat)
    (name : CStr) (z x y : Int) (c : Nat)
    (hen : en ≠ 0) (hs : sscanf_uri uri = .ok ⟨some name, z, x, y⟩) (hz : z ≠ -1)
    (hc : findTileset st name = (c : Int)) (ho : (st.tilesets c).opened = 0) :
    mbtiles_handler st en uri fuel
      = .ok { status := .HTTP_INTERNAL_SERVER_ERROR
              contentType := none
              contentEncoding := none
              contentLength := none
              body := []
              read := none
              closed := false } := by
  have hne : (c : Int) ≠ -1 := by omega
  simp only [mbtiles_handler, hs, hc, Int.toNat_ofNat]
  rw [if_neg hen, if_neg hz, if_neg hne, if_pos ho]
  rfl

/-- C8 at a concrete input: the unopened tileset `t`, a zoom of 40 for which the row could
not even be inverted, and no fuel for a read. -/
theorem C8_unopened_tileset_witness :
    mbtiles_handler (oneTileset (unopenedTileset "t".toList)) 1 "/t/40/0/0.pbf".toList 0
      = .ok { status := .HTTP_INTERNAL_SERVER_ERROR
              contentType := none
              contentEncoding := none
              contentLength := none
              body := []
              read := none
              closed := false } :=
  C8_unopened_tileset (oneTileset (unopenedTileset "t".toList)) 1 "/t/40/0/0.pbf".toList 0
    "t".toList 40 0 0 0 (by decide) (by rfl) (by decide) (by rfl) (by rfl)

/-- C8 as stated fails in a disabled scope. The tileset `t` is registered and its archive
cannot be opened, the path `/t/1/0/0.pbf` has the matching shape; with the flag at 0 the
handler returns `DECLINED`, with the flag at 1 it returns `HTTP_INTERNAL_SERVER_ERROR`. -/
theorem C8_unopened_tileset_counterexample :
    runServer [("t".toList, "/t.mbtiles".toList, Tileset.zero)] (fun _ => archiveBroken) 0
        "/t/1/0/0.pbf".toList 1
      = .ok (Outcome.bare .DECLINED) ∧
    runServer [("t".toList, "/t.mbtiles".toList, Tileset.zero)] (fun _ => archiveBroken) 1
        "/t/1/0/0.pbf".toList 1
      = .ok (Outcome.bare .HTTP_INTERNAL_SERVER_ERROR) ∧
    sscanf_uri "/t/1/0/0.pbf".toList = .ok ⟨some "t".toList, 1, 0, 0⟩ := by
  refine ⟨by rfl, by rfl, by rfl⟩

/-- C9. In an enabled scope, with an opened vector tileset registered as `vt` whose
connection answers the key (5, 10, 7) with the row `B`, the path `/vt/5/10/24.` makes the
handler read key (5, 10, 7) and return `OK` with body `B`, content length `|B|`, content
type `application/x-protobuf` and `Content-Encoding: gzip`, for any positive fuel. In
general, whenever the read of a matched request against an opened vector tileset returns
`SQLITE_OK` with a row, that row is the body, with the same headers. -/
theorem C9_end_to_end_vector_hit :
    (∀ (st : Globals) (en : Int) (fuel c : Nat) (B : Bytes),
      en ≠ 0 → findTileset st "vt".toList = (c : Int) →
      (st.tilesets c).Started → (st.tilesets c).format = pbf →
      (st.tilesets c).db.tileQuery 5 10 7 0 = ⟨SQLITE_OK, some B, SQLITE_OK⟩ →
      mbtiles_handler st en "/vt/5/10/24.".toList (fuel + 1)
        = .ok { status := .OK
                contentType := some "application/x-protobuf".toList
                contentEncoding := some "gzip".toList
                contentLength := some (B.length : Int)
                body := B
                read := some (5, 10, 7)
                closed := false }) ∧
    (∀ (st : Globals) (en : Int) (uri : CStr) (fuel : Nat) (name : CStr)
      (z x y y1 size : Int) (c : Nat) (tile : Bytes),
      en ≠ 0 → sscanf_uri uri = .ok ⟨some name, z, x, y⟩ → z ≠ -1 →
      findTileset st name = (c : Int) →
      (st.tilesets c).Started → (st.tilesets c).format = pbf →
      invertY z y = .ok y1 →
      readTile fuel (st.tilesets c).db z x y1 0 = .ok ⟨SQLITE_OK, some tile, size⟩ →
      mbtiles_handler st en uri fuel
        = .ok { status := .OK
                contentType := some "application/x-protobuf".toList
                contentEncoding := some "gzip".toList
                contentLength := some (tile.length : Int)
                body := tile
                read := some (z, x, y1)
                closed := false }) := by
  have general : ∀ (st : Globals) (en : Int) (uri : CStr) (fuel : Nat) (name : CStr)
      (z x y y1 size : Int) (c : Nat) (tile : Bytes),
      en ≠ 0 → sscanf_uri uri = .ok ⟨some name, z, x, y⟩ → z ≠ -1 →
      findTileset st name = (c : Int) →
      (st.tilesets c).Started → (st.tilesets c).format = pbf →
      invertY z y = .ok y1 →
      readTile fuel (st.tilesets c).db z x y1 0 = .ok ⟨SQLITE_OK, some tile, size⟩ →
      mbtiles_handler st en uri fuel
        = .ok { status := .OK
                contentType := some "application/x-protobuf".toList
                contentEncoding := some "gzip".toList
                contentLength := some (tile.length : Int)
                body := tile
                read := some (z, x, y1)
                closed := false } := by
    intro st en uri fuel name z x y y1 size c tile hen hs hz hc hst hfmt hy hr
    have hne : (c : Int) ≠ -1 := by omega
    have ho : (st.tilesets c).opened ≠ 0 := by rw [hst.1]; decide
    have hp : (st.tilesets c).isPBF ≠ 0 := by rw [hst.2, if_pos hfmt]; decide
    have hsize : size = (tile.length : Int) :=
      readTile_size fuel _ z x y1 0 _ tile hr rfl
    subst hsize
    simp only [mbtiles_handler, hs, hc, hy, hr, Int.toNat_ofNat]
    rw [if_neg hen, if_neg hz, if_neg hne, if_neg ho, if_neg (by simp), if_pos hp]
    simp
  refine ⟨?_, general⟩
  intro st en fuel c B hen hc hst hfmt hB
  have hr := readTile_first_round fuel (st.tilesets c).db 5 10 7 0 (some B) hB
  exact general st en "/vt/5/10/24.".toList (fuel + 1) "vt".toList 5 10 24 7 _ c B
    hen (by rfl) (by decide) hc hst hfmt (by rfl) hr

/-- C9 at a concrete input: `vt` holds the two bytes 9, 9 at (5, 10, 7); the scenario path
with its empty suffix, and the path `/vt/5/10/24.pbf` through the general statement. -/
theorem C9_end_to_end_vector_hit_witness :
    mbtiles_handler (oneTileset (openedTileset "vt".toList pbf (dbWith 5 10 7 [9, 9]))) 1
        "/vt/5/10/24.".toList (0 + 1)
      = .ok { status := .OK
              contentType := some "application/x-protobuf".toList
              contentEncoding := some "gzip".toList
              contentLength := some (([9, 9] : Bytes).length : Int)
              body := [9, 9]
              read := some (5, 10, 7)
              closed := false } ∧
    mbtiles_handler (oneTileset (openedTileset "vt".toList pbf (dbWith 5 10 7 [9, 9]))) 1
        "/vt/5/10/24.pbf".toList 3
      = .ok { status := .OK
              contentType := some "application/x-protobuf".toList
              contentEncoding := some "gzip".toList
              contentLength := some (([9, 9] : Bytes).length : Int)
              body := [9, 9]
              read := some (5, 10, 7)
              closed := false } :=
  ⟨C9_end_to_end_vector_hit.1
      (oneTileset (openedTileset "vt".toList pbf (dbWith 5 10 7 [9, 9]))) 1 0 0 [9, 9]
      (by decide) (by rfl) ⟨by rfl, by rfl⟩ (by rfl) (by rfl),
   C9_end_to_end_vector_hit.2
      (oneTileset (openedTileset "vt".toList pbf (dbWith 5 10 7 [9, 9]))) 1
      "/vt/5/10/24.pbf".toList 3 "vt".toList 5 10 24 7 2 0 [9, 9]
      (by decide) (by rfl) (by decide) (by rfl) ⟨by rfl, by rfl⟩ (by rfl) (by rfl) (by rfl)⟩

/-- C10. A path whose z segment is not a number (`/t/x/0/0.pbf`) leaves `z` at -1 and is
declined in every state. But a negative zoom other than -1 is parsed and accepted:
`negativeZoomUri` is scanned to z = -2, the tileset lookup happens, the request gets
`HTTP_INTERNAL_SERVER_ERROR` when `t` is unopened, and when `t` is opened the handler
evaluates `1 << -2`, which is undefined. -/
theorem C10_non_negative_zoom :
    (∀ (st : Globals) (en : Int) (fuel : Nat),
      mbtiles_handler st en "/t/x/0/0.pbf".toList fuel = .ok (Outcome.bare .DECLINED)) ∧
    sscanf_uri negativeZoomUri = .ok ⟨some "t".toList, -2, 0, 0⟩ ∧
    runServer [("t".toList, "/t.mbtiles".toList, Tileset.zero)] (fun _ => archiveBroken) 1
        negativeZoomUri 1
      = .ok (Outcome.bare .HTTP_INTERNAL_SERVER_ERROR) ∧
    invertY (-2) 0 = .error .undefined ∧
    runServer [("t".toList, "/t.mbtiles".toList, Tileset.zero)]
        (fun _ => archiveOf pbf (dbWith 3 2 6 [1, 2, 3])) 1 negativeZoomUri 1
      = .error .undefined := by
  refine ⟨?_, by rfl, by rfl, by rfl, by rfl⟩
  intro st en fuel
  have hs : sscanf_uri "/t/x/0/0.pbf".toList = .ok ⟨some "t".toList, -1, 0, 0⟩ := by rfl
  by_cases hen : en = 0
  · simp [mbtiles_handler, hen]
  · rw [mbtiles_handler, if_neg hen, hs]
    rfl

end ModMbtiles
